import Mathlib

/-!
# Verification of the mcp-delphi build server command construction

Shallow embedding of `src/server.ts` (mcp-delphi). The server translates
build/clean/compile tool requests into a single child-process spawn. We model:

* the Node `path` helpers the code uses (`extname`, `basename`, `dirname`),
* JavaScript string truthiness and the `||` default operator,
* the five request handlers (`buildWithMSBuild`, `cleanWithMSBuild`,
  `buildWithFpc`, `lazarusBuild`, `lazarusClean`) as functions from an
  abstract environment (filesystem, path resolution, environment variables)
  to either a validation error or the single `SpawnCall` they perform,
* the uniform response formatting of the registered tools, and
* the settlement behaviour of the `runCommand` promise executor.
-/

deriving instance DecidableEq for Except

namespace McpDelphi

/-! ## Node path helpers -/

/-- Path separator characters (the server may run on Windows, where both
`/` and `\` separate components). -/
def isSep (c : Char) : Bool := c == '/' || c == '\\'

/-- Drop trailing separator characters, as Node's `basename`/`dirname` do. -/
def dropTrailingSeps (p : String) : String :=
  String.mk ((p.toList.reverse.dropWhile isSep).reverse)

/-- Node `path.basename`: the final path component, ignoring trailing
separators. -/
def basename (p : String) : String :=
  String.mk (((dropTrailingSeps p).toList.reverse.takeWhile (fun c => !(isSep c))).reverse)

/-- Node `path.dirname`: everything before the final component. -/
def dirname (p : String) : String :=
  let q := dropTrailingSeps p
  if q.isEmpty then (if p.isEmpty then "." else String.mk [p.toList.headD '/'])
  else
    let rest := q.toList.reverse.dropWhile (fun c => !(isSep c))
    let rest2 := rest.dropWhile isSep
    if rest.isEmpty then "."
    else if rest2.isEmpty then String.mk [rest.headD '/']
    else String.mk rest2.reverse

/-- Node `path.extname`: the extension of the final component, from its last
dot (inclusive); empty when the component has no dot, or only a leading dot. -/
def extname (p : String) : String :=
  let base := basename p
  if base == ".." then ""
  else
    let revc := base.toList.reverse
    match revc.dropWhile (fun c => c != '.') with
    | [] => ""
    | [_] => ""
    | _ :: _ :: _ => String.mk ('.' :: (revc.takeWhile (fun c => c != '.')).reverse)

/-- JavaScript `toLowerCase` restricted to ASCII (all extensions compared by
the server are ASCII). -/
def lowerStr (s : String) : String := String.mk (s.toList.map Char.toLower)

/-! ## JavaScript truthiness and defaults -/

/-- Truthiness of an optional string: `undefined` and `""` are falsy. -/
def jsTruthy : Option String → Bool
  | none => false
  | some s => !s.isEmpty

/-- JavaScript `a || b` on optional strings. -/
def jsOr (a b : Option String) : Option String := if jsTruthy a then a else b

/-- JavaScript `a || d` where the final default `d` is a non-empty literal. -/
def jsOrD (a : Option String) (d : String) : String := (jsOr a (some d)).getD d

/-! ## Data model -/

/-- The ambient world the server reads: `existsSync`, `path.resolve`
(relative to the current working directory), and the environment variables
`RSVARS_BAT`, `RSVARS_PATH`, `MSBUILD_PATH`. -/
structure Env where
  fs : String → Bool
  resolve : String → String
  rsvarsBatVar : Option String
  rsvarsPathVar : Option String
  msbuildPathVar : Option String

/-- The one observable side effect of a handler: the single
`runCommand(cmd, args, options)` call it makes (`cwd` is the optional
working-directory override). -/
structure SpawnCall where
  cmd : String
  args : List String
  cwd : Option String
deriving DecidableEq, Repr

/-- The two validation errors thrown before any spawn. -/
inductive BuildError where
  | notFound (msg : String)
  | unsupported (msg : String)
deriving DecidableEq, Repr

/-- Request fields of `delphi.build` / `delphi.clean` (after schema decoding). -/
structure BuildReq where
  project : String
  configuration : Option String
  platform : Option String
  msbuildPath : Option String
  rsvarsPath : Option String
deriving DecidableEq, Repr

/-- Request fields of `fpc.build`. -/
structure FpcReq where
  source : String
  output : Option String
  defines : Option (List String)
  unitPaths : Option (List String)
  includePaths : Option (List String)
  cpu : Option String
  os : Option String
  fpcPath : Option String
deriving DecidableEq, Repr

/-- Request fields of `lazarus.build`. -/
structure LazBuildReq where
  project : String
  buildMode : Option String
  cpu : Option String
  os : Option String
  lazbuildPath : Option String
deriving DecidableEq, Repr

/-- Request fields of `lazarus.clean`. -/
structure LazCleanReq where
  project : String
  lazbuildPath : Option String
deriving DecidableEq, Repr

/-! ## Shared helpers from `server.ts` -/

/-- The `resolveDefaults()` helper: `rsvars = RSVARS_BAT || RSVARS_PATH`,
`msbuild = MSBUILD_PATH`. -/
def resolveDefaults (env : Env) : Option String × Option String :=
  (jsOr env.rsvarsBatVar env.rsvarsPathVar, env.msbuildPathVar)

/-- Predicate `isDelphiProject` (server.ts lines 75-78). -/
def isDelphiProject (file : String) : Bool :=
  let ext := lowerStr (extname file)
  ext == ".dproj" || ext == ".groupproj"

/-- Predicate `isFpcSource` (server.ts lines 148-151). -/
def isFpcSource (file : String) : Bool :=
  let ext := lowerStr (extname file)
  ext == ".pas" || ext == ".pp" || ext == ".p" || ext == ".lpr"

/-- Predicate `isLazarusProject` (server.ts lines 175-177). -/
def isLazarusProject (file : String) : Bool :=
  lowerStr (extname file) == ".lpi"

/-- The quoting `'"' + path + '"'` applied to the project/source path. -/
def quoteArg (s : String) : String := "\"" ++ s ++ "\""

/-- A JS ternary `o ? f(o) : ''` on an optional string field. -/
def condFlag (o : Option String) (f : String → String) : String :=
  if jsTruthy o then f (o.getD "") else ""

/-- A conditional `if (o) args.push(f(o))`, as the list it contributes. -/
def optFlag (o : Option String) (f : String → String) : List String :=
  if jsTruthy o then [f (o.getD "")] else []

/-- The resolution `rsvarsFinal = rsvarsPath || rsvars` where `rsvars` comes from
`resolveDefaults`. -/
def rsvarsFinalOf (env : Env) (rsvarsPath : Option String) : Option String :=
  jsOr rsvarsPath (resolveDefaults env).1

/-- The resolution `msbuildFinal = msbuildPath || msbuild || 'msbuild'`. -/
def msbuildFinalOf (env : Env) (msbuildPath : Option String) : String :=
  jsOrD msbuildPath (jsOrD (resolveDefaults env).2 "msbuild")

/-- MSBuild build argument vector (server.ts lines 94-99):
quoted path, `/t:Build`, then the two property flags filtered by truthiness. -/
def msbuildBuildArgs (projPath : String) (configuration platform : Option String) :
    List String :=
  ([quoteArg projPath,
    "/t:Build",
    condFlag configuration (fun c => "/p:Config=" ++ c),
    condFlag platform (fun p => "/p:Platform=" ++ p)]).filter (fun s => !s.isEmpty)

/-- MSBuild clean argument vector (server.ts lines 128-133). -/
def msbuildCleanArgs (projPath : String) (configuration platform : Option String) :
    List String :=
  ([quoteArg projPath,
    "/t:Clean",
    condFlag configuration (fun c => "/p:Config=" ++ c),
    condFlag platform (fun p => "/p:Platform=" ++ p)]).filter (fun s => !s.isEmpty)

/-- The composite `cmd /s /c` instruction (server.ts line 106): the template
literal `"@echo off && call \"rsvars\" && msbuild args..."` with its outer
literal quotes. -/
def compositeInstr (rsvarsFinal msbuildFinal : String) (args : List String) : String :=
  "\"@echo off && call \"" ++ rsvarsFinal ++ "\" && " ++ msbuildFinal ++ " " ++
    String.intercalate " " args ++ "\""

/-! ## The five handlers -/

/-- Handler `buildWithMSBuild` (server.ts lines 80-113), returning the validation
error thrown or the single `runCommand` call performed. -/
def buildWithMSBuild (env : Env) (r : BuildReq) : Except BuildError SpawnCall :=
  let projPath := env.resolve r.project
  if env.fs projPath = false then
    Except.error (BuildError.notFound ("Project not found: " ++ projPath))
  else if isDelphiProject projPath = false then
    Except.error (BuildError.unsupported
      "Unsupported project type. Provide a .dproj or .groupproj file")
  else
    let rsvarsFinal := rsvarsFinalOf env r.rsvarsPath
    let msbuildFinal := msbuildFinalOf env r.msbuildPath
    let args := msbuildBuildArgs projPath r.configuration r.platform
    if (jsTruthy rsvarsFinal && env.fs (rsvarsFinal.getD "")) = true then
      Except.ok
        { cmd := "cmd"
          args := ["/s", "/c", compositeInstr (rsvarsFinal.getD "") msbuildFinal args]
          cwd := none }
    else
      Except.ok { cmd := msbuildFinal, args := args, cwd := none }

/-- Handler `cleanWithMSBuild` (server.ts lines 115-145). -/
def cleanWithMSBuild (env : Env) (r : BuildReq) : Except BuildError SpawnCall :=
  let projPath := env.resolve r.project
  if env.fs projPath = false then
    Except.error (BuildError.notFound ("Project not found: " ++ projPath))
  else if isDelphiProject projPath = false then
    Except.error (BuildError.unsupported
      "Unsupported project type. Provide a .dproj or .groupproj file")
  else
    let rsvarsFinal := rsvarsFinalOf env r.rsvarsPath
    let msbuildFinal := msbuildFinalOf env r.msbuildPath
    let args := msbuildCleanArgs projPath r.configuration r.platform
    if (jsTruthy rsvarsFinal && env.fs (rsvarsFinal.getD "")) = true then
      Except.ok
        { cmd := "cmd"
          args := ["/s", "/c", compositeInstr (rsvarsFinal.getD "") msbuildFinal args]
          cwd := none }
    else
      Except.ok { cmd := msbuildFinal, args := args, cwd := none }

/-- FPC argument vector (server.ts lines 161-168): conditional `-P`/`-T`/`-o`
flags, then `-d`/`-Fu`/`-Fi` per entry in order, then the quoted source. -/
def fpcArgs (env : Env) (r : FpcReq) (srcPath : String) : List String :=
  optFlag r.cpu (fun c => "-P" ++ c) ++
  optFlag r.os (fun o => "-T" ++ o) ++
  optFlag r.output (fun o => "-o" ++ env.resolve o) ++
  (r.defines.getD []).map (fun d => "-d" ++ d) ++
  (r.unitPaths.getD []).map (fun p => "-Fu" ++ env.resolve p) ++
  (r.includePaths.getD []).map (fun p => "-Fi" ++ env.resolve p) ++
  [quoteArg srcPath]

/-- Handler `buildWithFpc` (server.ts lines 153-172); spawns with
`cwd = dirname(srcPath)`. -/
def buildWithFpc (env : Env) (r : FpcReq) : Except BuildError SpawnCall :=
  let srcPath := env.resolve r.source
  if env.fs srcPath = false then
    Except.error (BuildError.notFound ("Source not found: " ++ srcPath))
  else if isFpcSource srcPath = false then
    Except.error (BuildError.unsupported "Unsupported source type. Provide a .lpr/.pas/.pp")
  else
    Except.ok
      { cmd := jsOrD r.fpcPath "fpc"
        args := fpcArgs env r srcPath
        cwd := some (dirname srcPath) }

/-- lazbuild argument vector (server.ts lines 187-191): the build-mode flag is
kept only when `buildMode` is truthy, then conditional `--cpu`/`--os`, then the
quoted project path. -/
def lazarusBuildArgs (r : LazBuildReq) (projPath : String) : List String :=
  (if jsTruthy r.buildMode then ["--build-mode=" ++ r.buildMode.getD ""] else []) ++
  optFlag r.cpu (fun c => "--cpu=" ++ c) ++
  optFlag r.os (fun o => "--os=" ++ o) ++
  [quoteArg projPath]

/-- Handler `lazarusBuild` (server.ts lines 179-194); spawns with
`cwd = dirname(projPath)`. -/
def lazarusBuild (env : Env) (r : LazBuildReq) : Except BuildError SpawnCall :=
  let projPath := env.resolve r.project
  if env.fs projPath = false then
    Except.error (BuildError.notFound ("Project not found: " ++ projPath))
  else if isLazarusProject projPath = false then
    Except.error (BuildError.unsupported "Unsupported project type. Provide a .lpi file")
  else
    Except.ok
      { cmd := jsOrD r.lazbuildPath "lazbuild"
        args := lazarusBuildArgs r projPath
        cwd := some (dirname projPath) }

/-- Handler `lazarusClean` (server.ts lines 196-207). -/
def lazarusClean (env : Env) (r : LazCleanReq) : Except BuildError SpawnCall :=
  let projPath := env.resolve r.project
  if env.fs projPath = false then
    Except.error (BuildError.notFound ("Project not found: " ++ projPath))
  else if isLazarusProject projPath = false then
    Except.error (BuildError.unsupported "Unsupported project type. Provide a .lpi file")
  else
    Except.ok
      { cmd := jsOrD r.lazbuildPath "lazbuild"
        args := ["--clean", quoteArg projPath]
        cwd := some (dirname projPath) }

/-! ## Response formatting (the five registered tools) -/

/-- The value `runCommand` resolves with: `{ code, stdout, stderr }`, where
`code : number | null`. -/
structure ExecResult where
  code : Option Int
  stdout : String
  stderr : String
deriving DecidableEq, Repr

/-- The tool response: the four text segments and the `isError` flag. -/
structure ToolResponse where
  content : List String
  isError : Bool
deriving DecidableEq, Repr

/-- JavaScript template rendering of `code : number | null`. -/
def codeText : Option Int → String
  | none => "null"
  | some n => toString n

/-- The uniform response body each registered tool builds from the
`runCommand` result (server.ts lines 220-230 and its four clones):
`ok = code === 0`, a verb-specific status line over `basename` of the input
path, the exit-code line, and the stdout/stderr blocks; `isError = !ok`. -/
def mkToolResponse (verb path : String) (res : ExecResult) : ToolResponse :=
  let ok := res.code == some 0
  { content :=
      [if ok then verb ++ " succeeded for " ++ basename path
       else verb ++ " failed for " ++ basename path,
       "Exit code: " ++ codeText res.code,
       "--- STDOUT ---\n" ++ res.stdout,
       "--- STDERR ---\n" ++ res.stderr]
    isError := !ok }

/-- The `delphi.build` tool: validation and spawn, then formatting of the
execution result (the execution itself is abstracted by `exec`). -/
def delphiBuildHandler (env : Env) (exec : SpawnCall → ExecResult) (r : BuildReq) :
    Except BuildError ToolResponse :=
  (buildWithMSBuild env r).map (fun sc => mkToolResponse "Build" r.project (exec sc))

/-- The `delphi.clean` tool. -/
def delphiCleanHandler (env : Env) (exec : SpawnCall → ExecResult) (r : BuildReq) :
    Except BuildError ToolResponse :=
  (cleanWithMSBuild env r).map (fun sc => mkToolResponse "Clean" r.project (exec sc))

/-- The `fpc.build` tool. -/
def fpcBuildHandler (env : Env) (exec : SpawnCall → ExecResult) (r : FpcReq) :
    Except BuildError ToolResponse :=
  (buildWithFpc env r).map (fun sc => mkToolResponse "FPC build" r.source (exec sc))

/-- The `lazarus.build` tool. -/
def lazarusBuildHandler (env : Env) (exec : SpawnCall → ExecResult) (r : LazBuildReq) :
    Except BuildError ToolResponse :=
  (lazarusBuild env r).map (fun sc => mkToolResponse "Lazarus build" r.project (exec sc))

/-- The `lazarus.clean` tool. -/
def lazarusCleanHandler (env : Env) (exec : SpawnCall → ExecResult) (r : LazCleanReq) :
    Except BuildError ToolResponse :=
  (lazarusClean env r).map (fun sc => mkToolResponse "Lazarus clean" r.project (exec sc))

/-! ## The `runCommand` promise executor

`runCommand` (server.ts lines 10-24) wraps `spawn` in
`new Promise((resolvePromise) => ...)`. The executor registers a `data`
handler on stdout, a `data` handler on stderr, and a `close` handler that
calls `resolvePromise`. It binds no reject callback and registers no
handler for the child's `error` event (the event emitted when the OS cannot
start the process). We model the promise's settlement as a function of the
sequence of events the child emits: each event is dispatched to the handler
the executor registered for it, if any. -/

/-- Events a Node child process can emit to the handlers in scope. -/
inductive ChildEvent where
  | stdoutData (chunk : String)
  | stderrData (chunk : String)
  | close (code : Option Int)
  | errorEvent (msg : String)
deriving DecidableEq, Repr

/-- How a promise can settle. -/
inductive Settlement where
  | resolved (res : ExecResult)
  | rejected (msg : String)
deriving DecidableEq, Repr

/-- Settlement of the `runCommand` promise after a sequence of child events,
starting from the accumulated `out`/`err` buffers: `data` events append to a
buffer, `close` resolves with the accumulated result, and an `error` event is
dropped because no handler was registered for it — in particular the promise
can never be rejected. -/
def runCommandSettle : List ChildEvent → String → String → Option Settlement
  | [], _, _ => none
  | ChildEvent.stdoutData s :: rest, out, err => runCommandSettle rest (out ++ s) err
  | ChildEvent.stderrData s :: rest, out, err => runCommandSettle rest out (err ++ s)
  | ChildEvent.close c :: _, out, err => some (Settlement.resolved ⟨c, out, err⟩)
  | ChildEvent.errorEvent _ :: rest, out, err => runCommandSettle rest out err

/-! ## Result classification helpers -/

def isNotFoundRes : Except BuildError SpawnCall → Bool
  | Except.error (BuildError.notFound _) => true
  | _ => false

def isUnsupportedRes : Except BuildError SpawnCall → Bool
  | Except.error (BuildError.unsupported _) => true
  | _ => false

def isOkRes : Except BuildError SpawnCall → Bool
  | Except.ok _ => true
  | _ => false

/-! ## Shared lemmas -/

/-- A quoted path is never the empty string, so `.filter(Boolean)` keeps it. -/
theorem quoteArg_not_isEmpty (p : String) : (quoteArg p).isEmpty = false := by
  rw [Bool.eq_false_iff]
  intro h
  have h2 : quoteArg p = "" := (String.isEmpty_iff _).mp h
  have h3 := congrArg String.length h2
  rw [quoteArg, String.length_append, String.length_append] at h3
  have e1 : ("\"" : String).length = 1 := rfl
  have e0 : ("" : String).length = 0 := rfl
  omega

/-- A quoted path starts with `"`, so it is never an MSBuild property flag. -/
theorem quoteArg_ne_of_head (p s : String) (hs : s.data.head? ≠ some '"') :
    quoteArg p ≠ s := by
  intro h
  apply hs
  rw [← h, quoteArg, String.data_append, String.data_append]
  rfl

/-! ## Concrete worlds used to exercise the theorems -/

/-- A world whose current directory is `/work`, holding one FPC source file. -/
def envWork : Env :=
  { fs := fun p => p == "/work/main.lpr"
    resolve := fun p => if p.take 1 == "/" then p else "/work/" ++ p
    rsvarsBatVar := none
    rsvarsPathVar := none
    msbuildPathVar := none }

/-- A world holding a Delphi project and an existing rsvars script. -/
def envRad : Env :=
  { fs := fun p => p == "/proj/app.dproj" || p == "/rad/rsvars.bat"
    resolve := fun p => if p.take 1 == "/" then p else "/proj/" ++ p
    rsvarsBatVar := none
    rsvarsPathVar := none
    msbuildPathVar := none }

/-- A world where every path exists (used to isolate extension validation). -/
def envAll : Env :=
  { fs := fun _ => true
    resolve := fun p => p
    rsvarsBatVar := none
    rsvarsPathVar := none
    msbuildPathVar := none }

/-- A world where no path exists. -/
def envNone : Env :=
  { fs := fun _ => false
    resolve := fun p => p
    rsvarsBatVar := none
    rsvarsPathVar := none
    msbuildPathVar := none }

/-- The fpc request `source="main.lpr"`, `cpu="x86_64"`, `os="win64"`,
`defines=["DEBUG=1"]` from the spec's end-to-end scenario. -/
def reqFpcWork : FpcReq :=
  { source := "main.lpr"
    output := none
    defines := some ["DEBUG=1"]
    unitPaths := none
    includePaths := none
    cpu := some "x86_64"
    os := some "win64"
    fpcPath := none }

/-- The spawn `buildWithFpc` performs on `reqFpcWork` in `envWork`. -/
def spawnFpcWork : SpawnCall :=
  { cmd := "fpc"
    args := ["-Px86_64", "-Twin64", "-dDEBUG=1", quoteArg "/work/main.lpr"]
    cwd := some "/work" }

/-! ## Claim theorems -/

/-- C1: for a project-build request with configuration `"Release"` and
platform `"Win64"`, the constructed MSBuild argument vector (server.ts lines
94-99) is exactly the quoted absolute project path, `/t:Build`,
`/p:Config=Release`, `/p:Platform=Win64`, in that order. -/
theorem msbuildBuildArgs_release_win64 (projPath : String) :
    msbuildBuildArgs projPath (some "Release") (some "Win64") =
      [quoteArg projPath, "/t:Build", "/p:Config=Release", "/p:Platform=Win64"] := by
  simp [msbuildBuildArgs, condFlag, jsTruthy, List.filter, quoteArg_not_isEmpty]
  decide

/-- C4: for every request kind, when the input path does not resolve to an
existing file the handler returns the not-found error during validation, and
no spawn call is produced. -/
theorem not_found_blocks_spawn (env : Env) :
    (∀ r : BuildReq, env.fs (env.resolve r.project) = false →
      buildWithMSBuild env r =
        Except.error (BuildError.notFound ("Project not found: " ++ env.resolve r.project)) ∧
      isOkRes (buildWithMSBuild env r) = false) ∧
    (∀ r : BuildReq, env.fs (env.resolve r.project) = false →
      cleanWithMSBuild env r =
        Except.error (BuildError.notFound ("Project not found: " ++ env.resolve r.project)) ∧
      isOkRes (cleanWithMSBuild env r) = false) ∧
    (∀ r : FpcReq, env.fs (env.resolve r.source) = false →
      buildWithFpc env r =
        Except.error (BuildError.notFound ("Source not found: " ++ env.resolve r.source)) ∧
      isOkRes (buildWithFpc env r) = false) ∧
    (∀ r : LazBuildReq, env.fs (env.resolve r.project) = false →
      lazarusBuild env r =
        Except.error (BuildError.notFound ("Project not found: " ++ env.resolve r.project)) ∧
      isOkRes (lazarusBuild env r) = false) ∧
    (∀ r : LazCleanReq, env.fs (env.resolve r.project) = false →
      lazarusClean env r =
        Except.error (BuildError.notFound ("Project not found: " ++ env.resolve r.project)) ∧
      isOkRes (lazarusClean env r) = false) := by
  refine ⟨fun r h => ?_, fun r h => ?_, fun r h => ?_, fun r h => ?_, fun r h => ?_⟩
  · simp [buildWithMSBuild, h, isOkRes]
  · simp [cleanWithMSBuild, h, isOkRes]
  · simp [buildWithFpc, h, isOkRes]
  · simp [lazarusBuild, h, isOkRes]
  · simp [lazarusClean, h, isOkRes]

/-- C4 witness: in a world with no files, `delphi.build` on `/x/app.dproj`
fails with the not-found error and produces no spawn. -/
theorem not_found_blocks_spawn_witness :
    buildWithMSBuild envNone ⟨"/x/app.dproj", none, none, none, none⟩ =
      Except.error (BuildError.notFound "Project not found: /x/app.dproj") ∧
    isOkRes (buildWithMSBuild envNone ⟨"/x/app.dproj", none, none, none, none⟩) = false :=
  (not_found_blocks_spawn envNone).1 ⟨"/x/app.dproj", none, none, none, none⟩ rfl

/-- C9: for every request kind, the not-found condition takes precedence over
the unsupported-kind condition: a nonexistent path yields the not-found error
(and never the unsupported error) whatever its extension, because each handler
checks existence first. -/
theorem not_found_precedence (env : Env) :
    (∀ r : BuildReq, env.fs (env.resolve r.project) = false →
      isNotFoundRes (buildWithMSBuild env r) = true ∧
      isUnsupportedRes (buildWithMSBuild env r) = false) ∧
    (∀ r : BuildReq, env.fs (env.resolve r.project) = false →
      isNotFoundRes (cleanWithMSBuild env r) = true ∧
      isUnsupportedRes (cleanWithMSBuild env r) = false) ∧
    (∀ r : FpcReq, env.fs (env.resolve r.source) = false →
      isNotFoundRes (buildWithFpc env r) = true ∧
      isUnsupportedRes (buildWithFpc env r) = false) ∧
    (∀ r : LazBuildReq, env.fs (env.resolve r.project) = false →
      isNotFoundRes (lazarusBuild env r) = true ∧
      isUnsupportedRes (lazarusBuild env r) = false) ∧
    (∀ r : LazCleanReq, env.fs (env.resolve r.project) = false →
      isNotFoundRes (lazarusClean env r) = true ∧
      isUnsupportedRes (lazarusClean env r) = false) := by
  refine ⟨fun r h => ?_, fun r h => ?_, fun r h => ?_, fun r h => ?_, fun r h => ?_⟩
  · simp [buildWithMSBuild, h, isNotFoundRes, isUnsupportedRes]
  · simp [cleanWithMSBuild, h, isNotFoundRes, isUnsupportedRes]
  · simp [buildWithFpc, h, isNotFoundRes, isUnsupportedRes]
  · simp [lazarusBuild, h, isNotFoundRes, isUnsupportedRes]
  · simp [lazarusClean, h, isNotFoundRes, isUnsupportedRes]

/-- C9 witness: a path that both does not exist and has an extension outside
the accepted set still fails with not-found, not unsupported-kind. -/
theorem not_found_precedence_witness :
    isNotFoundRes (buildWithMSBuild envNone ⟨"/x/readme.txt", none, none, none, none⟩) = true ∧
    isUnsupportedRes (buildWithMSBuild envNone ⟨"/x/readme.txt", none, none, none, none⟩) = false :=
  (not_found_precedence envNone).1 ⟨"/x/readme.txt", none, none, none, none⟩ rfl

/-- C10: `fpc.build`, `lazarus.build` and `lazarus.clean` spawn with the
working directory set to the directory of the resolved input file, while
`delphi.build` and `delphi.clean` spawn with no working-directory override. -/
theorem working_directory_policy (env : Env) :
    (∀ (r : FpcReq) (sc : SpawnCall), buildWithFpc env r = Except.ok sc →
      sc.cwd = some (dirname (env.resolve r.source))) ∧
    (∀ (r : LazBuildReq) (sc : SpawnCall), lazarusBuild env r = Except.ok sc →
      sc.cwd = some (dirname (env.resolve r.project))) ∧
    (∀ (r : LazCleanReq) (sc : SpawnCall), lazarusClean env r = Except.ok sc →
      sc.cwd = some (dirname (env.resolve r.project))) ∧
    (∀ (r : BuildReq) (sc : SpawnCall), buildWithMSBuild env r = Except.ok sc →
      sc.cwd = none) ∧
    (∀ (r : BuildReq) (sc : SpawnCall), cleanWithMSBuild env r = Except.ok sc →
      sc.cwd = none) := by
  refine ⟨fun r sc h => ?_, fun r sc h => ?_, fun r sc h => ?_,
          fun r sc h => ?_, fun r sc h => ?_⟩
  · unfold buildWithFpc at h
    simp only [] at h
    split at h
    next => exact absurd h (by simp)
    next =>
      split at h
      next => exact absurd h (by simp)
      next => cases h; rfl
  · unfold lazarusBuild at h
    simp only [] at h
    split at h
    next => exact absurd h (by simp)
    next =>
      split at h
      next => exact absurd h (by simp)
      next => cases h; rfl
  · unfold lazarusClean at h
    simp only [] at h
    split at h
    next => exact absurd h (by simp)
    next =>
      split at h
      next => exact absurd h (by simp)
      next => cases h; rfl
  · unfold buildWithMSBuild at h
    simp only [] at h
    split at h
    next => exact absurd h (by simp)
    next =>
      split at h
      next => exact absurd h (by simp)
      next =>
        split at h
        next => cases h; rfl
        next => cases h; rfl
  · unfold cleanWithMSBuild at h
    simp only [] at h
    split at h
    next => exact absurd h (by simp)
    next =>
      split at h
      next => exact absurd h (by simp)
      next =>
        split at h
        next => cases h; rfl
        next => cases h; rfl

/-- C10 witness: the concrete fpc build in `/work` runs with working directory
`/work`, the directory of the resolved source file. -/
theorem working_directory_policy_witness :
    spawnFpcWork.cwd = some "/work" :=
  (working_directory_policy envWork).1 reqFpcWork spawnFpcWork (by decide)

/-- C2: the fpc argument vector has the fixed order target-CPU flag,
target-OS flag, output flag, define flags in order, unit-path flags in order,
include-path flags in order, quoted absolute source path last; the quoted
source is always the last element, and the spec's end-to-end scenario
(`source="main.lpr"`, `targetCpu="x86_64"`, `targetOs="win64"`,
`defines=["DEBUG=1"]`) produces exactly
`["-Px86_64", "-Twin64", "-dDEBUG=1", "\"/work/main.lpr\""]`. -/
theorem fpc_args_order :
    (∀ (env : Env) (r : FpcReq) (srcPath : String),
      (fpcArgs env r srcPath).getLast? = some (quoteArg srcPath)) ∧
    (∀ (env : Env) (src outp cpu osStr : String) (ds us incs : List String),
      cpu.isEmpty = false → osStr.isEmpty = false → outp.isEmpty = false →
      fpcArgs env
          { source := src, output := some outp, defines := some ds,
            unitPaths := some us, includePaths := some incs,
            cpu := some cpu, os := some osStr, fpcPath := none }
          (env.resolve src) =
        ["-P" ++ cpu, "-T" ++ osStr, "-o" ++ env.resolve outp] ++
          ds.map (fun d => "-d" ++ d) ++
          us.map (fun p => "-Fu" ++ env.resolve p) ++
          incs.map (fun p => "-Fi" ++ env.resolve p) ++
          [quoteArg (env.resolve src)]) ∧
    buildWithFpc envWork reqFpcWork = Except.ok spawnFpcWork := by
  refine ⟨?_, ?_, by decide⟩
  · intro env r srcPath
    simp [fpcArgs, List.getLast?_append]
  · intro env src outp cpu osStr ds us incs hc ho hout
    simp [fpcArgs, optFlag, jsTruthy, hc, ho, hout]

/-- C2 witness: with every optional field supplied, the vector lists the CPU,
OS and output flags, then the defines, unit paths and include paths in order,
then the quoted source path last. -/
theorem fpc_args_order_witness :
    fpcArgs envAll
        { source := "/s/m.pas", output := some "/s/out", defines := some ["D1", "D2"],
          unitPaths := some ["/u"], includePaths := some ["/i"],
          cpu := some "x86_64", os := some "win64", fpcPath := none }
        "/s/m.pas" =
      ["-Px86_64", "-Twin64", "-o/s/out", "-dD1", "-dD2", "-Fu/u", "-Fi/i",
       quoteArg "/s/m.pas"] := by
  have h := fpc_args_order.2.1 envAll "/s/m.pas" "/s/out" "x86_64" "win64"
    ["D1", "D2"] ["/u"] ["/i"] (by decide) (by decide) (by decide)
  simpa using h

/-- The world and request exhibiting the `.p` extension accepted by
`isFpcSource`. -/
def envDotP : Env :=
  { fs := fun p => p == "/src/prog.p"
    resolve := fun p => p
    rsvarsBatVar := none
    rsvarsPathVar := none
    msbuildPathVar := none }

def reqDotP : FpcReq :=
  { source := "/src/prog.p", output := none, defines := none, unitPaths := none,
    includePaths := none, cpu := none, os := none, fpcPath := none }

/-- C3 counterexample: `/src/prog.p` resolves to an existing file whose
extension `.p` is not in the claimed compiler set `{.lpr, .pas, .pp}`, yet
validation does not fail — `buildWithFpc` accepts it and spawns the
compiler (server.ts line 150 also accepts `.p`). -/
theorem fpc_accepts_dot_p :
    lowerStr (extname "/src/prog.p") = ".p" ∧
    ([".lpr", ".pas", ".pp"].contains ".p") = false ∧
    isUnsupportedRes (buildWithFpc envDotP reqDotP) = false ∧
    buildWithFpc envDotP reqDotP =
      Except.ok { cmd := "fpc", args := [quoteArg "/src/prog.p"], cwd := some "/src" } :=
  ⟨by decide, by decide, by decide, by decide⟩

/-- Failing `isDelphiProject` is extension non-membership in `{.dproj, .groupproj}`. -/
theorem isDelphiProject_eq_false_iff (f : String) :
    isDelphiProject f = false ↔
      lowerStr (extname f) ∉ ([".dproj", ".groupproj"] : List String) := by
  simp [isDelphiProject]

/-- Failing `isFpcSource` is extension non-membership in `{.pas, .pp, .p, .lpr}`. -/
theorem isFpcSource_eq_false_iff (f : String) :
    isFpcSource f = false ↔
      lowerStr (extname f) ∉ ([".pas", ".pp", ".p", ".lpr"] : List String) := by
  simp [isFpcSource]
  tauto

/-- Failing `isLazarusProject` is extension non-membership in `{.lpi}`. -/
theorem isLazarusProject_eq_false_iff (f : String) :
    isLazarusProject f = false ↔
      lowerStr (extname f) ∉ ([".lpi"] : List String) := by
  simp [isLazarusProject]

/-- C3 (amended): for a request whose path resolves to an existing file,
validation fails with the unsupported-kind error iff the resolved path's
lower-cased extension is outside the kind's accepted set — `{.dproj,
.groupproj}` for the project kinds, `{.pas, .pp, .p, .lpr}` for the compiler
kind, `{.lpi}` for the alt-build kinds — and an unsupported result is never a
spawn. -/
theorem extension_validation_iff (env : Env) :
    (∀ r : BuildReq, env.fs (env.resolve r.project) = true →
      (isUnsupportedRes (buildWithMSBuild env r) = true ↔
        lowerStr (extname (env.resolve r.project)) ∉
          ([".dproj", ".groupproj"] : List String))) ∧
    (∀ r : BuildReq, env.fs (env.resolve r.project) = true →
      (isUnsupportedRes (cleanWithMSBuild env r) = true ↔
        lowerStr (extname (env.resolve r.project)) ∉
          ([".dproj", ".groupproj"] : List String))) ∧
    (∀ r : FpcReq, env.fs (env.resolve r.source) = true →
      (isUnsupportedRes (buildWithFpc env r) = true ↔
        lowerStr (extname (env.resolve r.source)) ∉
          ([".pas", ".pp", ".p", ".lpr"] : List String))) ∧
    (∀ r : LazBuildReq, env.fs (env.resolve r.project) = true →
      (isUnsupportedRes (lazarusBuild env r) = true ↔
        lowerStr (extname (env.resolve r.project)) ∉ ([".lpi"] : List String))) ∧
    (∀ r : LazCleanReq, env.fs (env.resolve r.project) = true →
      (isUnsupportedRes (lazarusClean env r) = true ↔
        lowerStr (extname (env.resolve r.project)) ∉ ([".lpi"] : List String))) ∧
    (∀ res : Except BuildError SpawnCall, isUnsupportedRes res = true →
      isOkRes res = false) := by
  refine ⟨fun r h => ?_, fun r h => ?_, fun r h => ?_, fun r h => ?_, fun r h => ?_,
          fun res hres => ?_⟩
  · rw [← isDelphiProject_eq_false_iff]
    by_cases hd : isDelphiProject (env.resolve r.project) = false
    · simp [buildWithMSBuild, h, hd, isUnsupportedRes]
    · rw [Bool.not_eq_false] at hd
      have h1 : isUnsupportedRes (buildWithMSBuild env r) = false := by
        simp only [buildWithMSBuild, h, hd]
        simp only [Bool.true_eq_false, if_false, reduceIte]
        split <;> simp [isUnsupportedRes]
      rw [h1, hd]
      simp
  · rw [← isDelphiProject_eq_false_iff]
    by_cases hd : isDelphiProject (env.resolve r.project) = false
    · simp [cleanWithMSBuild, h, hd, isUnsupportedRes]
    · rw [Bool.not_eq_false] at hd
      have h1 : isUnsupportedRes (cleanWithMSBuild env r) = false := by
        simp only [cleanWithMSBuild, h, hd]
        simp only [Bool.true_eq_false, if_false, reduceIte]
        split <;> simp [isUnsupportedRes]
      rw [h1, hd]
      simp
  · rw [← isFpcSource_eq_false_iff]
    by_cases hd : isFpcSource (env.resolve r.source) = false
    · simp [buildWithFpc, h, hd, isUnsupportedRes]
    · rw [Bool.not_eq_false] at hd
      simp [buildWithFpc, h, hd, isUnsupportedRes]
  · rw [← isLazarusProject_eq_false_iff]
    by_cases hd : isLazarusProject (env.resolve r.project) = false
    · simp [lazarusBuild, h, hd, isUnsupportedRes]
    · rw [Bool.not_eq_false] at hd
      simp [lazarusBuild, h, hd, isUnsupportedRes]
  · rw [← isLazarusProject_eq_false_iff]
    by_cases hd : isLazarusProject (env.resolve r.project) = false
    · simp [lazarusClean, h, hd, isUnsupportedRes]
    · rw [Bool.not_eq_false] at hd
      simp [lazarusClean, h, hd, isUnsupportedRes]
  · cases res with
    | error e =>
      cases e with
      | notFound m => simp [isOkRes]
      | unsupported m => simp [isOkRes]
    | ok sc => simp [isUnsupportedRes] at hres

/-- C3 witness: an existing file with extension `.txt` fails project-kind
validation with the unsupported-kind error. -/
theorem extension_validation_iff_witness :
    isUnsupportedRes (buildWithMSBuild envAll ⟨"/x/readme.txt", none, none, none, none⟩) =
      true :=
  ((extension_validation_iff envAll).1 ⟨"/x/readme.txt", none, none, none, none⟩
    (by decide)).mpr (by decide)

/-- C5: for a validated project-build or project-clean request, the single
spawn is shell-wrapped iff the resolved rsvars path is truthy (non-empty) and
exists on disk: then the command is the interpreter `cmd` with the one
composite instruction, which is the script invocation and the tool invocation
joined by `&&`; otherwise the tool itself is the command with the plain
argument vector and no wrapping. Either way exactly one `SpawnCall` results. -/
theorem rsvars_wrapping (env : Env) :
    (∀ r : BuildReq, env.fs (env.resolve r.project) = true →
      isDelphiProject (env.resolve r.project) = true →
      ((jsTruthy (rsvarsFinalOf env r.rsvarsPath) &&
          env.fs ((rsvarsFinalOf env r.rsvarsPath).getD "")) = true →
        buildWithMSBuild env r = Except.ok
          { cmd := "cmd"
            args := ["/s", "/c",
              compositeInstr ((rsvarsFinalOf env r.rsvarsPath).getD "")
                (msbuildFinalOf env r.msbuildPath)
                (msbuildBuildArgs (env.resolve r.project) r.configuration r.platform)]
            cwd := none }) ∧
      ((jsTruthy (rsvarsFinalOf env r.rsvarsPath) &&
          env.fs ((rsvarsFinalOf env r.rsvarsPath).getD "")) = false →
        buildWithMSBuild env r = Except.ok
          { cmd := msbuildFinalOf env r.msbuildPath
            args := msbuildBuildArgs (env.resolve r.project) r.configuration r.platform
            cwd := none })) ∧
    (∀ r : BuildReq, env.fs (env.resolve r.project) = true →
      isDelphiProject (env.resolve r.project) = true →
      ((jsTruthy (rsvarsFinalOf env r.rsvarsPath) &&
          env.fs ((rsvarsFinalOf env r.rsvarsPath).getD "")) = true →
        cleanWithMSBuild env r = Except.ok
          { cmd := "cmd"
            args := ["/s", "/c",
              compositeInstr ((rsvarsFinalOf env r.rsvarsPath).getD "")
                (msbuildFinalOf env r.msbuildPath)
                (msbuildCleanArgs (env.resolve r.project) r.configuration r.platform)]
            cwd := none }) ∧
      ((jsTruthy (rsvarsFinalOf env r.rsvarsPath) &&
          env.fs ((rsvarsFinalOf env r.rsvarsPath).getD "")) = false →
        cleanWithMSBuild env r = Except.ok
          { cmd := msbuildFinalOf env r.msbuildPath
            args := msbuildCleanArgs (env.resolve r.project) r.configuration r.platform
            cwd := none })) ∧
    (∀ (rv msb : String) (args : List String),
      compositeInstr rv msb args =
        ("\"@echo off && call \"" ++ rv ++ "\"") ++ " && " ++
          (msb ++ " " ++ String.intercalate " " args ++ "\"")) := by
  refine ⟨fun r h1 h2 => ⟨fun hw => ?_, fun hw => ?_⟩,
          fun r h1 h2 => ⟨fun hw => ?_, fun hw => ?_⟩,
          fun rv msb args => ?_⟩
  · simp [buildWithMSBuild, h1, h2, hw]
  · simp [buildWithMSBuild, h1, h2, hw]
  · simp [cleanWithMSBuild, h1, h2, hw]
  · simp [cleanWithMSBuild, h1, h2, hw]
  · rw [compositeInstr, show ("\" && " : String) = "\"" ++ " && " from rfl]
    simp [String.append_assoc]

/-- The build request used to exercise the wrapped branch: an existing
project and an existing rsvars script. -/
def reqRad : BuildReq :=
  { project := "/proj/app.dproj"
    configuration := some "Release"
    platform := some "Win64"
    msbuildPath := none
    rsvarsPath := some "/rad/rsvars.bat" }

/-- C5 witness: with an existing rsvars script the single spawn is
`cmd /s /c` with the composite instruction chaining the script call and the
msbuild invocation with `&&`. -/
theorem rsvars_wrapping_witness :
    buildWithMSBuild envRad reqRad = Except.ok
      { cmd := "cmd"
        args := ["/s", "/c",
          "\"@echo off && call \"/rad/rsvars.bat\" && msbuild \"/proj/app.dproj\" /t:Build /p:Config=Release /p:Platform=Win64\""]
        cwd := none } := by
  have h := ((rsvars_wrapping envRad).1 reqRad (by decide) (by decide)).1 (by decide)
  exact h.trans (by decide)

/-- C6: every tool response is built by `mkToolResponse` from the single
execution result: `isError` is true iff the exit code is absent or non-zero
(equivalently `isError = !(code == 0)`), and the status line, exit-code line,
stdout block and stderr block are the four content segments derived from that
same result; each of the five registered handlers produces exactly this
response for the spawn it performed. -/
theorem response_error_iff :
    (∀ (verb path : String) (res : ExecResult),
      ((mkToolResponse verb path res).isError = true ↔
        res.code = none ∨ ∃ n, res.code = some n ∧ n ≠ 0) ∧
      (mkToolResponse verb path res).isError = !(res.code == some 0) ∧
      (mkToolResponse verb path res).content =
        [if res.code == some 0 then verb ++ " succeeded for " ++ basename path
         else verb ++ " failed for " ++ basename path,
         "Exit code: " ++ codeText res.code,
         "--- STDOUT ---\n" ++ res.stdout,
         "--- STDERR ---\n" ++ res.stderr]) ∧
    (∀ (env : Env) (exec : SpawnCall → ExecResult) (r : BuildReq) (out : ToolResponse),
      delphiBuildHandler env exec r = Except.ok out →
      ∃ sc, buildWithMSBuild env r = Except.ok sc ∧
        out = mkToolResponse "Build" r.project (exec sc)) ∧
    (∀ (env : Env) (exec : SpawnCall → ExecResult) (r : BuildReq) (out : ToolResponse),
      delphiCleanHandler env exec r = Except.ok out →
      ∃ sc, cleanWithMSBuild env r = Except.ok sc ∧
        out = mkToolResponse "Clean" r.project (exec sc)) ∧
    (∀ (env : Env) (exec : SpawnCall → ExecResult) (r : FpcReq) (out : ToolResponse),
      fpcBuildHandler env exec r = Except.ok out →
      ∃ sc, buildWithFpc env r = Except.ok sc ∧
        out = mkToolResponse "FPC build" r.source (exec sc)) ∧
    (∀ (env : Env) (exec : SpawnCall → ExecResult) (r : LazBuildReq) (out : ToolResponse),
      lazarusBuildHandler env exec r = Except.ok out →
      ∃ sc, lazarusBuild env r = Except.ok sc ∧
        out = mkToolResponse "Lazarus build" r.project (exec sc)) ∧
    (∀ (env : Env) (exec : SpawnCall → ExecResult) (r : LazCleanReq) (out : ToolResponse),
      lazarusCleanHandler env exec r = Except.ok out →
      ∃ sc, lazarusClean env r = Except.ok sc ∧
        out = mkToolResponse "Lazarus clean" r.project (exec sc)) := by
  refine ⟨fun verb path res => ⟨?_, rfl, rfl⟩, ?_, ?_, ?_, ?_, ?_⟩
  · rcases res with ⟨c, o, e⟩
    cases c with
    | none => simp [mkToolResponse]
    | some n =>
      by_cases hn : n = 0
      · subst hn; simp [mkToolResponse]
      · simp [mkToolResponse, hn]
  · intro env exec r out hout
    cases hb : buildWithMSBuild env r with
    | error e => simp [delphiBuildHandler, hb, Except.map] at hout
    | ok sc =>
      simp [delphiBuildHandler, hb, Except.map] at hout
      exact ⟨sc, rfl, hout.symm⟩
  · intro env exec r out hout
    cases hb : cleanWithMSBuild env r with
    | error e => simp [delphiCleanHandler, hb, Except.map] at hout
    | ok sc =>
      simp [delphiCleanHandler, hb, Except.map] at hout
      exact ⟨sc, rfl, hout.symm⟩
  · intro env exec r out hout
    cases hb : buildWithFpc env r with
    | error e => simp [fpcBuildHandler, hb, Except.map] at hout
    | ok sc =>
      simp [fpcBuildHandler, hb, Except.map] at hout
      exact ⟨sc, rfl, hout.symm⟩
  · intro env exec r out hout
    cases hb : lazarusBuild env r with
    | error e => simp [lazarusBuildHandler, hb, Except.map] at hout
    | ok sc =>
      simp [lazarusBuildHandler, hb, Except.map] at hout
      exact ⟨sc, rfl, hout.symm⟩
  · intro env exec r out hout
    cases hb : lazarusClean env r with
    | error e => simp [lazarusCleanHandler, hb, Except.map] at hout
    | ok sc =>
      simp [lazarusCleanHandler, hb, Except.map] at hout
      exact ⟨sc, rfl, hout.symm⟩

/-- C6 witness: a non-zero exit code yields a response flagged as an error. -/
theorem response_error_iff_witness :
    (mkToolResponse "Build" "app.dproj" ⟨some 1, "", ""⟩).isError = true :=
  (response_error_iff.1 "Build" "app.dproj" ⟨some 1, "", ""⟩).1.mpr
    (Or.inr ⟨1, rfl, by decide⟩)

/-- C7: when both the configuration and platform fields are absent or empty,
the MSBuild argument vectors contain no property flag at all — no empty
`/p:Config=` or `/p:Platform=` token — and are exactly the quoted project
path followed by the target flag. -/
theorem omitted_flags (projPath : String) (c p : Option String)
    (hc : c = none ∨ c = some "") (hp : p = none ∨ p = some "") :
    msbuildBuildArgs projPath c p = [quoteArg projPath, "/t:Build"] ∧
    msbuildCleanArgs projPath c p = [quoteArg projPath, "/t:Clean"] ∧
    "/p:Config=" ∉ msbuildBuildArgs projPath c p ∧
    "/p:Platform=" ∉ msbuildBuildArgs projPath c p ∧
    "/p:Config=" ∉ msbuildCleanArgs projPath c p ∧
    "/p:Platform=" ∉ msbuildCleanArgs projPath c p := by
  have hb : msbuildBuildArgs projPath c p = [quoteArg projPath, "/t:Build"] := by
    rcases hc with rfl | rfl <;> rcases hp with rfl | rfl <;>
      simp [msbuildBuildArgs, condFlag, jsTruthy, List.filter, quoteArg_not_isEmpty] <;>
      decide
  have hcl : msbuildCleanArgs projPath c p = [quoteArg projPath, "/t:Clean"] := by
    rcases hc with rfl | rfl <;> rcases hp with rfl | rfl <;>
      simp [msbuildCleanArgs, condFlag, jsTruthy, List.filter, quoteArg_not_isEmpty] <;>
      decide
  refine ⟨hb, hcl, ?_, ?_, ?_, ?_⟩
  all_goals first
    | (rw [hb]
       simp only [List.mem_cons, List.not_mem_nil, or_false]
       rintro (h | h)
       · exact (quoteArg_ne_of_head projPath _ (by decide)) h.symm
       · exact absurd h (by decide))
    | (rw [hcl]
       simp only [List.mem_cons, List.not_mem_nil, or_false]
       rintro (h | h)
       · exact (quoteArg_ne_of_head projPath _ (by decide)) h.symm
       · exact absurd h (by decide))

/-- C7 witness: with configuration absent and platform the empty string, both
vectors are just the quoted path and target flag. -/
theorem omitted_flags_witness :
    msbuildBuildArgs "/p/app.dproj" none (some "") = [quoteArg "/p/app.dproj", "/t:Build"] ∧
    msbuildCleanArgs "/p/app.dproj" none (some "") = [quoteArg "/p/app.dproj", "/t:Clean"] :=
  ⟨(omitted_flags "/p/app.dproj" none (some "") (Or.inl rfl) (Or.inr rfl)).1,
   (omitted_flags "/p/app.dproj" none (some "") (Or.inl rfl) (Or.inr rfl)).2.1⟩

/-- C8: the `runCommand` promise executor (server.ts lines 10-24) binds no
reject callback and registers no handler for the child's `error` event, so
when the OS cannot start the process (only an `error` event, no `close`) the
promise does not settle at all — in particular it is not rejected — while a
missing tool binary under `shell: true` surfaces as an ordinary resolution
with the shell's exit code 127. -/
theorem runCommand_spawn_error_unsettled :
    runCommandSettle [ChildEvent.errorEvent "spawn ENOENT"] "" "" = none ∧
    runCommandSettle
        [ChildEvent.stderrData "msbuild: not found\n", ChildEvent.close (some 127)] "" "" =
      some (Settlement.resolved ⟨some 127, "", "msbuild: not found\n"⟩) :=
  ⟨rfl, rfl⟩

end McpDelphi
